import Mathlib

/-!
Verification development for the OpenList task-orchestration core.

Shallow embedding of:
* `internal/db/tasks.go` — task-record index table operations
  (`ListTaskRecords`, `ReplaceTaskRecords`, `UpsertTaskRecordsFromTasks`,
  `UpdateTaskDataAndIndexFunc`, `convertToRecord`, `toLite`);
* `server/handles/task.go` — HTTP control plane
  (`parseTaskListQuery`, `taskListHandler`, `getTargetedHandler`,
  `getBatchHandler`, `sortTasks`);
* `internal/fs/cache/upload_cache.go` (full variant with Extras /
  metadata-key support) — upload cache state machine, sidecar metadata
  marshalling with legacy-key folding.

The database table is modelled as a list of rows, the filesystem as an
association list from paths to contents, Go `float64` progress as
`Rat`-or-NaN, and machine integers as `Int`/`Nat` (all values involved are
far from the 64-bit boundaries and no overflowing arithmetic occurs in the
embedded code paths).  Regular-expression compilation and JSON
encoding/decoding are external library calls and are passed in as function
parameters.  GORM's auto-managed `created_at` / `updated_at` columns are
not modelled (no embedded property depends on them).
-/

namespace OpenList

/-- The ten task states of the tache scheduler, in declaration order
(`StatePending = 0` through `StateSucceeded = 9`). -/
inductive TState where
  | pending
  | running
  | canceling
  | canceled
  | errored
  | failing
  | waitingRetry
  | beforeRetry
  | failed
  | succeeded
deriving DecidableEq

/-- Integer value of a tache state (Go `int(t.State)`). -/
def TState.toInt : TState → Int
  | .pending => 0
  | .running => 1
  | .canceling => 2
  | .canceled => 3
  | .errored => 4
  | .failing => 5
  | .waitingRetry => 6
  | .beforeRetry => 7
  | .failed => 8
  | .succeeded => 9

/-- Go `float64` progress: either NaN or a real (rational) value. -/
inductive Progress where
  | nan
  | val (x : Rat)
deriving DecidableEq

/-- `math.IsNaN(progress) → 100` conversion used throughout the code. -/
def progressValue : Progress → Rat
  | .nan => 100
  | .val x => x

/-- Task creator (`model.User` as seen through `GetCreator`). -/
structure Creator where
  id : Nat
  username : String
  role : Int
deriving DecidableEq

/-- The `task.TaskExtensionInfo` view of a task.  `creator = none` models a
nil `GetCreator()` (system task); `err = none` models nil `GetErr()`. -/
structure Task where
  id : String
  name : String
  creator : Option Creator
  state : TState
  status : String
  progress : Progress
  startTime : Option Nat
  endTime : Option Nat
  totalBytes : Int
  err : Option String
deriving DecidableEq

/-- Authenticated caller as consumed by `getUserInfo`. -/
structure User where
  id : Nat
  isAdmin : Bool
deriving DecidableEq

/-- A `task_records` row (`model.TaskRecord`; auto timestamps omitted). -/
structure TaskRecord where
  taskId : String
  ttype : String
  name : String
  creator : String
  creatorId : Nat
  creatorRole : Int
  state : Int
  status : String
  progress : Rat
  startTime : Option Nat
  endTime : Option Nat
  totalBytes : Int
  error : String
deriving DecidableEq

/-- `db.TaskRecordLite`. -/
structure TaskRecordLite where
  id : String
  name : String
  creator : String
  creatorId : Nat
  creatorRole : Int
  state : TState
  status : String
  progress : Progress
  startTime : Option Nat
  endTime : Option Nat
  totalBytes : Int
  error : String
deriving DecidableEq

/-- `db.toLite`: project a task to the lite record, defaulting creator
fields (`""`, `0`, `-1`) when the creator is nil. -/
def toLite (t : Task) : TaskRecordLite :=
  { id := t.id
    name := t.name
    creator := (t.creator.map (·.username)).getD ""
    creatorId := (t.creator.map (·.id)).getD 0
    creatorRole := (t.creator.map (·.role)).getD (-1)
    state := t.state
    status := t.status
    progress := t.progress
    startTime := t.startTime
    endTime := t.endTime
    totalBytes := t.totalBytes
    error := t.err.getD "" }

/-- `db.convertToRecord`: NaN progress becomes 100, state becomes its
integer value, the row type is the task kind. -/
def convertToRecord (taskType : String) (l : TaskRecordLite) : TaskRecord :=
  { taskId := l.id
    ttype := taskType
    name := l.name
    creator := l.creator
    creatorId := l.creatorId
    creatorRole := l.creatorRole
    state := l.state.toInt
    status := l.status
    progress := progressValue l.progress
    startTime := l.startTime
    endTime := l.endTime
    totalBytes := l.totalBytes
    error := l.error }

/-- Stable insertion sort by a boolean `le`; models Go `sort.SliceStable`
(and the SQL `ORDER BY`) — only the multiset of rows and stability matter
to the embedded properties. -/
def orderedInsert (le : α → α → Bool) (a : α) : List α → List α
  | [] => [a]
  | b :: l => if le a b then a :: b :: l else b :: orderedInsert le a l

/-- Insertion sort driven by `orderedInsert`. -/
def insertionSort (le : α → α → Bool) : List α → List α
  | [] => []
  | a :: l => orderedInsert le a (insertionSort le l)

/-- Prefix test on character lists (kernel-computable replacement for
`String.startsWith`). -/
def charsPrefix : List Char → List Char → Bool
  | [], _ => true
  | _ :: _, [] => false
  | a :: as, b :: bs => a == b && charsPrefix as bs

/-- Contiguous-substring test on character lists. -/
def charsContainsSub (needle : List Char) : List Char → Bool
  | [] => needle.isEmpty
  | a :: l => charsPrefix needle (a :: l) || charsContainsSub needle l

/-- Lexicographic order on character lists by code point; on UTF-8
strings this coincides with Go's byte-wise string order. -/
def charsLt : List Char → List Char → Bool
  | [], [] => false
  | [], _ :: _ => true
  | _ :: _, [] => false
  | a :: as, b :: bs => if a == b then charsLt as bs else decide (a.toNat < b.toNat)

/-- Go `a < b` on strings (byte-wise). -/
def strLt (a b : String) : Bool :=
  charsLt a.toList b.toList

/-- Go `strings.ToLower` (ASCII case mapping suffices for the embedded
data). -/
def toLowerStr (s : String) : String :=
  String.mk (s.data.map Char.toLower)

/-- `COALESCE(end_time, start_time)` of a row. -/
def coalesceTime (r : TaskRecord) : Option Nat :=
  match r.endTime with
  | some e => some e
  | none => r.startTime

/-- Row comparison for `ORDER BY COALESCE(end_time, start_time) DESC,
task_id DESC` (`a` sorts no later than `b`); SQL NULLs sort last under
DESC. -/
def recordOrd (a b : TaskRecord) : Bool :=
  match coalesceTime a, coalesceTime b with
  | some x, some y =>
    if x = y then !(strLt a.taskId b.taskId) else decide (y < x)
  | some _, none => true
  | none, some _ => false
  | none, none => !(strLt a.taskId b.taskId)

/-- SQL `name LIKE '%keyword%'` as a plain substring test (LIKE wildcard
characters inside the keyword are not modelled; no embedded property
involves them). -/
def likeContains (name keyword : String) : Bool :=
  charsContainsSub keyword.toList name.toList

/-- The page/pageSize normalisation performed at the top of
`db.ListTaskRecords` (lines 186–192): coerce `page < 1` to 1, default
`pageSize < 1` to 20, `offset = (page-1)*pageSize`.  Returns
`(page, pageSize, offset)`. -/
def listTaskRecordsPage (page pageSize : Int) : Int × Int × Int :=
  let page := if page < 1 then 1 else page
  let pageSize := if pageSize < 1 then 20 else pageSize
  (page, pageSize, (page - 1) * pageSize)

/-- The WHERE clause of `db.ListTaskRecords`: `type = taskType`,
`state IN states` (when non-empty), `creator_id = creatorID` (when
non-zero), `name LIKE %keyword%` (when non-empty). -/
def taskRecordMatches (taskType : String) (states : List Int) (creatorID : Nat)
    (keyword : String) (r : TaskRecord) : Bool :=
  r.ttype == taskType
    && (states.isEmpty || states.contains r.state)
    && (creatorID == 0 || r.creatorId == creatorID)
    && (keyword == "" || likeContains r.name keyword)

/-- `db.ListTaskRecords` over a table modelled as a list of rows: filter,
count, order, then `OFFSET offset LIMIT pageSize`.  Returns
`(rows, total)`. -/
def ListTaskRecords (table : List TaskRecord) (taskType : String)
    (states : List Int) (creatorID : Nat) (keyword : String)
    (page pageSize : Int) : List TaskRecord × Int :=
  let p := listTaskRecordsPage page pageSize
  let pageSize := p.2.1
  let offset := p.2.2
  let filtered := table.filter (taskRecordMatches taskType states creatorID keyword)
  let total : Int := filtered.length
  let sorted := insertionSort recordOrd filtered
  ((sorted.drop offset.toNat).take pageSize.toNat, total)

/-- The per-kind delete of `db.ReplaceTaskRecords`:
`DELETE FROM task_records WHERE type = taskType`. -/
def deleteByType (table : List TaskRecord) (taskType : String) : List TaskRecord :=
  table.filter (fun r => !(r.ttype == taskType))

/-- Conflict test on the primary key `(task_id, type)`. -/
def sameKey (a b : TaskRecord) : Bool :=
  a.taskId == b.taskId && a.ttype == b.ttype

/-- One row of the batched `INSERT ... ON CONFLICT (task_id, type) DO
UPDATE`: update the existing row's columns on conflict (all modelled
columns are in the update set), otherwise append. -/
def upsertOne (table : List TaskRecord) (r : TaskRecord) : List TaskRecord :=
  if table.any (fun x => sameKey r x) then
    table.map (fun x => if sameKey r x then r else x)
  else
    table ++ [r]

/-- Split a list into chunks of `n` (the batching of `CreateInBatches`);
each chunk takes `1 + (n-1)` elements so the definition terminates for
every `n`. -/
def chunksOf (n : Nat) : List α → List (List α)
  | [] => []
  | a :: l => (a :: l.take (n - 1)) :: chunksOf n (l.drop (n - 1))
termination_by l => l.length
decreasing_by
  simp only [List.length_drop, List.length_cons]
  omega

/-- `db.ReplaceTaskRecords`: one transaction that deletes every row of the
kind and then (unless the record list is empty) upserts the new rows in
batches of 500. -/
def ReplaceTaskRecords (table : List TaskRecord) (taskType : String)
    (records : List TaskRecord) : List TaskRecord :=
  let cleared := deleteByType table taskType
  if records.isEmpty then cleared
  else (chunksOf 500 records).foldl (fun acc batch => batch.foldl upsertOne acc) cleared

/-- `db.UpsertTaskRecordsFromTasks`: convert each task and replace the
rows of the kind. -/
def UpsertTaskRecordsFromTasks (table : List TaskRecord) (taskType : String)
    (tasks : List Task) : List TaskRecord :=
  ReplaceTaskRecords table taskType (tasks.map (fun t => convertToRecord taskType (toLite t)))

/-- Effect trace of one invocation of the combined writer returned by
`db.UpdateTaskDataAndIndexFunc`. -/
structure CombinedWriteTrace where
  snapshotAttempted : Bool
  snapshotContent : Option String
  deserialiseAttempted : Bool
  indexAttempted : Bool
deriving DecidableEq

/-- The only error the combined writer can return. -/
inductive WriteErr where
  | snapshotErr
deriving DecidableEq

/-- The `"null"`/`""` to `"[]"` normalisation shared by the snapshot
writers. -/
def normSnapshotContent (data : String) : String :=
  if data == "null" || data == "" then "[]" else data

/-- The combined snapshot+index writer built by
`db.UpdateTaskDataAndIndexFunc`.  `snapshotWriteOK` / `indexOK` model the
success of the two database writes; `parse` models `json.Unmarshal` of the
snapshot into a task slice.  Mirrors the Go control flow: normalise
`"null"`/`""` to `"[]"`; when persistence is enabled write the snapshot and
propagate its failure; then deserialise (failure logged, `nil` returned)
and upsert the index (failure logged, `nil` returned). -/
def updateTaskDataAndIndex (persistEnabled snapshotWriteOK indexOK : Bool)
    (parse : String → Option (List Task)) (data : String) :
    CombinedWriteTrace × Option WriteErr :=
  let content := normSnapshotContent data
  if persistEnabled && !snapshotWriteOK then
    ({ snapshotAttempted := true
       snapshotContent := some content
       deserialiseAttempted := false
       indexAttempted := false }, some .snapshotErr)
  else
    let base : CombinedWriteTrace :=
      { snapshotAttempted := persistEnabled
        snapshotContent := if persistEnabled then some content else none
        deserialiseAttempted := true
        indexAttempted := false }
    match parse content with
    | none => (base, none)
    | some _tasks =>
      -- index upsert runs; indexOK only selects the logged branch, the
      -- writer returns nil either way
      (({ base with indexAttempted := true }, none) :
        CombinedWriteTrace × Option WriteErr)

/-- Parsed task-list query (`handles.taskListQuery`).  The compiled regex
is an abstract match function. -/
structure TaskListQuery where
  page : Int
  pageSize : Int
  orderBy : String
  reverse : Bool
  mine : Bool
  regex : Option (String → Bool)
  keyword : String

/-- `handles.defaultTaskPageSize`. -/
def defaultTaskPageSize : Int := 20

/-- `handles.maxTaskPageSize`. -/
def maxTaskPageSize : Int := 200

/-- Raw query-string parameters of a task-list request; `none` models an
absent key (gin's `DefaultQuery` substitutes the default only then, and
`Query` yields `""`). -/
structure RawTaskListQuery where
  page : Option String
  pageSize : Option String
  orderBy : Option String
  order : Option String
  mine : Option String
  regex : Option String

/-- Go `strconv.Atoi`: optional sign then at least one digit (the ErrRange
overflow branch is not modelled; every embedded property uses small
inputs). -/
def atoi (s : String) : Option Int :=
  let core : Int → List Char → Option Int := fun sign digits =>
    if digits.isEmpty then none
    else if digits.all Char.isDigit then
      some (sign * Int.ofNat (digits.foldl (fun n c => n * 10 + (c.toNat - 48)) 0))
    else none
  match s.toList with
  | [] => none
  | c :: rest =>
    if c == '-' then core (-1) rest
    else if c == '+' then core 1 rest
    else core 1 (c :: rest)

/-- Go `strconv.ParseBool`. -/
def parseBool (s : String) : Option Bool :=
  if s == "1" || s == "t" || s == "T" || s == "TRUE" || s == "true" || s == "True" then some true
  else if s == "0" || s == "f" || s == "F" || s == "FALSE" || s == "false" || s == "False" then some false
  else none

/-- The `page` coercion of `handles.parseTaskListQuery`: parse failures
and values below 1 are coerced to 1. -/
def parsePageParam (s : String) : Int :=
  match atoi s with
  | none => 1
  | some n => if n < 1 then 1 else n

/-- The `page_size` coercion of `parseTaskListQuery`: parse failures and
non-positive values fall back to the default 20, values above 200 are
capped to 200. -/
def parsePageSizeBase (s : String) : Int :=
  match atoi s with
  | none => defaultTaskPageSize
  | some n => if n ≤ 0 then defaultTaskPageSize else n

/-- The cap applied after the default: values above 200 become 200. -/
def parsePageSizeParam (s : String) : Int :=
  if parsePageSizeBase s > maxTaskPageSize then maxTaskPageSize else parsePageSizeBase s

/-- The `order_by` fallback of `parseTaskListQuery`: lower-case, unknown
keys fall back to `"name"`. -/
def parseOrderByParam (s : String) : String :=
  let orderBy0 := toLowerStr s
  if orderBy0 == "name" || orderBy0 == "creator" || orderBy0 == "state" || orderBy0 == "progress"
  then orderBy0 else "name"

/-- `handles.parseTaskListQuery`.  `compile` models `regexp.Compile`
(returning either the compiler's error message or a match function).
Invalid or too-small page numbers are coerced, the page size is defaulted
and capped, an unknown `order_by` falls back to `"name"`, and only a
failing regex compilation makes the parse fail. -/
def parseTaskListQuery (compile : String → Except String (String → Bool))
    (c : RawTaskListQuery) : Except String TaskListQuery :=
  let page := parsePageParam (c.page.getD "1")
  let pageSize := parsePageSizeParam (c.pageSize.getD "20")
  let orderBy := parseOrderByParam (c.orderBy.getD "name")
  let order := toLowerStr (c.order.getD "")
  let reverse := order == "desc" || order == "true"
  let mine := (parseBool (c.mine.getD "false")).getD false
  let keyword := c.regex.getD ""
  if keyword ≠ "" then
    match compile keyword with
    | .error e => .error e
    | .ok r =>
      .ok { page := page, pageSize := pageSize, orderBy := orderBy, reverse := reverse,
            mine := mine, regex := some r, keyword := keyword }
  else
    .ok { page := page, pageSize := pageSize, orderBy := orderBy, reverse := reverse,
          mine := mine, regex := none, keyword := keyword }

/-- `handles.TaskInfo` (the JSON response row); `state` is the integer
state value as serialised. -/
structure TaskInfo where
  id : String
  name : String
  creator : String
  creatorRole : Int
  state : Int
  status : String
  progress : Rat
  startTime : Option Nat
  endTime : Option Nat
  totalBytes : Int
  error : String
deriving DecidableEq

/-- `handles.getTaskInfo`: NaN progress reported as 100, nil creator as
`("", -1)`. -/
def getTaskInfo (t : Task) : TaskInfo :=
  { id := t.id
    name := t.name
    creator := (t.creator.map (·.username)).getD ""
    creatorRole := (t.creator.map (·.role)).getD (-1)
    state := t.state.toInt
    status := t.status
    progress := progressValue t.progress
    startTime := t.startTime
    endTime := t.endTime
    totalBytes := t.totalBytes
    error := t.err.getD "" }

/-- `handles.recordsToInfos`. -/
def recordsToInfos (records : List TaskRecord) : List TaskInfo :=
  records.map (fun r =>
    { id := r.taskId
      name := r.name
      creator := r.creator
      creatorRole := r.creatorRole
      state := r.state
      status := r.status
      progress := r.progress
      startTime := r.startTime
      endTime := r.endTime
      totalBytes := r.totalBytes
      error := r.error })

/-- `handles.compareString` (Go byte-wise string compare; Lean's `<` on
strings is the same lexicographic order for the ASCII data involved). -/
def compareString (a b : String) : Int :=
  if a = b then 0 else if strLt b a then 1 else -1

/-- `handles.compareState` (integer compare of tache states). -/
def compareState (a b : TState) : Int :=
  if a = b then 0 else if b.toInt < a.toInt then 1 else -1

/-- `handles.creatorName`. -/
def creatorNameOf (t : Task) : String :=
  (t.creator.map (·.username)).getD ""

/-- Creator id as the handlers compute it: 0 when the creator is nil. -/
def taskCreatorID (t : Task) : Nat :=
  (t.creator.map (·.id)).getD 0

/-- The `less` function of `handles.sortTasks` (comparison by the order
key, ties broken by ID, then reversed when requested). -/
def sortTasksLess (orderBy : String) (reverse : Bool) (a b : Task) : Bool :=
  let cmp : Int :=
    if orderBy == "creator" then compareString (creatorNameOf a) (creatorNameOf b)
    else if orderBy == "state" then compareState a.state b.state
    else if orderBy == "progress" then
      let pa := progressValue a.progress
      let pb := progressValue b.progress
      if pa = pb then compareString a.id b.id
      else if pb < pa then -1 else 1
    else compareString a.name b.name
  let cmp := if cmp = 0 then compareString a.id b.id else cmp
  let cmp := if reverse then -cmp else cmp
  decide (cmp < 0)

/-- `handles.sortTasks`: stable sort by `sortTasksLess`
(`sort.SliceStable`). -/
def sortTasks (tasks : List Task) (orderBy : String) (reverse : Bool) : List Task :=
  insertionSort (fun a b => !(sortTasksLess orderBy reverse b a)) tasks

/-- The live-manager filter predicate of `handles.taskListHandler`
(`manager.GetByCondition` closure): state membership, the two owner
checks, and the regex match. -/
def livePred (states : List TState) (isAdmin : Bool) (uid : Nat)
    (restrictOwner : Bool) (regex : Option (String → Bool)) (t : Task) : Bool :=
  if !(states.contains t.state) then false
  else
    let creatorID := taskCreatorID t
    if !isAdmin && creatorID != uid then false
    else if restrictOwner && creatorID != uid then false
    else
      match regex with
      | some r => r t.name
      | none => true

/-- Live-path pagination of `handles.taskListHandler` (clamped
`tasks[start:end]`). -/
def paginateLive (l : List Task) (page pageSize : Int) : List Task :=
  let total : Int := l.length
  let start0 := (page - 1) * pageSize
  let start1 := if start0 < 0 then 0 else start0
  let start := if start1 > total then total else start1
  let en0 := start + pageSize
  let en := if en0 > total then total else en0
  (l.drop start.toNat).take (en - start).toNat

/-- The filtered and sorted live task list of the non-indexed path
(before pagination); its length is the reported `total`. -/
def taskListLiveAll (manager : List Task) (states : List TState)
    (isAdmin : Bool) (uid : Nat) (q : TaskListQuery) : List Task :=
  let restrictOwner := q.mine || !isAdmin
  sortTasks (manager.filter (livePred states isAdmin uid restrictOwner q.regex))
    q.orderBy q.reverse

/-- The live tasks actually returned (after pagination). -/
def taskListLiveTasks (manager : List Task) (states : List TState)
    (isAdmin : Bool) (uid : Nat) (q : TaskListQuery) : List Task :=
  paginateLive (taskListLiveAll manager states isAdmin uid q) q.page q.pageSize

/-- The indexed path of `handles.taskListHandler`: non-admins and
`mine=true` pass the caller's uid as `creatorID`, admins pass 0; the
regex value doubles as the LIKE keyword. -/
def taskListIndexRows (table : List TaskRecord) (taskType : String)
    (states : List TState) (isAdmin : Bool) (uid : Nat) (q : TaskListQuery) :
    List TaskRecord × Int :=
  let restrictOwner := q.mine || !isAdmin
  let creatorID := if restrictOwner then uid else 0
  ListTaskRecords table taskType (states.map TState.toInt) creatorID q.keyword q.page q.pageSize

/-- Response of the list handler: an error `(message, status)` or a page
`(content, total)`. -/
inductive ListHandlerResp where
  | err (msg : String) (status : Nat)
  | ok (content : List TaskInfo) (total : Int)
deriving DecidableEq

/-- `handles.taskListHandler`: 401 without identity, 400 when the query
parse fails, the indexed path when `useIndex` holds and no regex was
given, otherwise the live-manager path.  (The database cannot fail in
this model, so the 500 branch of the Go code does not arise.) -/
def taskListHandler (user? : Option User)
    (compile : String → Except String (String → Bool)) (raw : RawTaskListQuery)
    (manager : List Task) (table : List TaskRecord) (taskType : String)
    (useIndex : Bool) (states : List TState) : ListHandlerResp :=
  match user? with
  | none => .err "user invalid" 401
  | some u =>
    match parseTaskListQuery compile raw with
    | .error e => .err e 400
    | .ok q =>
      if useIndex && q.regex.isNone then
        let p := taskListIndexRows table taskType states u.isAdmin u.id q
        .ok (recordsToInfos p.1) p.2
      else
        let all := taskListLiveAll manager states u.isAdmin u.id q
        .ok ((paginateLive all q.page q.pageSize).map getTaskInfo) (Int.ofNat all.length)

/-- `undoneStates` of `handles`. -/
def undoneStates : List TState :=
  [.pending, .running, .canceling, .errored, .failing, .waitingRetry, .beforeRetry]

/-- `doneStates` of `handles`. -/
def doneStates : List TState :=
  [.canceled, .failed, .succeeded]

/-- `manager.GetByID` over the registry modelled as a list. -/
def managerGetByID (manager : List Task) (tid : String) : Option Task :=
  manager.find? (fun t => t.id == tid)

/-- Outcome of a targeted handler: an HTTP error response, the nil-pointer
dereference of `t.GetCreator().ID` on a creator-less task, or the action
callback on the resolved task. -/
inductive TargetedResp where
  | resp (msg : String) (status : Nat)
  | nilPanic
  | callback (t : Task)
deriving DecidableEq

/-- `handles.getTargetedHandler`: 401 without identity; 404 when the tid
is unknown; for non-admins, `uid != t.GetCreator().ID` — which
dereferences a nil creator — and 404 when the caller is not the creator;
otherwise the callback runs. -/
def getTargetedHandler (user? : Option User) (manager : List Task)
    (tid : String) : TargetedResp :=
  match user? with
  | none => .resp "user invalid" 401
  | some u =>
    match managerGetByID manager tid with
    | none => .resp "task not found" 404
    | some t =>
      if u.isAdmin then .callback t
      else
        match t.creator with
        | none => .nilPanic
        | some cr =>
          if u.id ≠ cr.id then .resp "task not found" 404
          else .callback t

/-- Insert-or-overwrite into the `retErrs` map modelled as an association
list. -/
def mapSet (m : List (String × String)) (k v : String) : List (String × String) :=
  if m.any (fun p => p.1 == k) then
    m.map (fun p => if p.1 == k then (k, v) else p)
  else m ++ [(k, v)]

/-- The per-tid loop of `handles.getBatchHandler`; `none` models the
panic on `t.GetCreator().ID` with a nil creator (short-circuit: admins
never evaluate the dereference). -/
def batchLoop (isAdmin : Bool) (uid : Nat) (manager : List Task) :
    List (String × String) → List String → Option (List (String × String))
  | acc, [] => some acc
  | acc, tid :: rest =>
    match managerGetByID manager tid with
    | none => batchLoop isAdmin uid manager (mapSet acc tid "task not found") rest
    | some t =>
      if isAdmin then batchLoop isAdmin uid manager acc rest
      else
        match t.creator with
        | none => none
        | some cr =>
          if uid ≠ cr.id then
            batchLoop isAdmin uid manager (mapSet acc tid "task not found") rest
          else batchLoop isAdmin uid manager acc rest

/-- Outcome of the batch handler. -/
inductive BatchResp where
  | resp (msg : String) (status : Nat)
  | nilPanic
  | ok (errs : List (String × String))
deriving DecidableEq

/-- `handles.getBatchHandler`: 401 without identity, 400 when the JSON
body does not bind to a string array (`body = none`), otherwise the loop
collecting `tid → "task not found"` for missing or unauthorised IDs. -/
def getBatchHandler (user? : Option User) (manager : List Task)
    (body : Option (List String)) : BatchResp :=
  match user? with
  | none => .resp "user invalid" 401
  | some u =>
    match body with
    | none => .resp "invalid request format" 400
    | some tids =>
      match batchLoop u.isAdmin u.id manager [] tids with
      | none => .nilPanic
      | some errs => .ok errs

/-- `cache.UploadMetadata`; `extras` models the Go `map[string]string` as
an association list with at most one entry per key (`nil`/empty map both
model as `[]`). -/
structure UploadMetadata where
  size : Int
  sliceSize : Int
  contentMD5 : String
  sliceMD5 : String
  blockList : List String
  extras : List (String × String)
deriving DecidableEq

/-- `UploadMetadata.SetExtra`: empty key is ignored, empty value deletes
the key, otherwise the key is bound to the value. -/
def setExtra (m : UploadMetadata) (key value : String) : UploadMetadata :=
  if key = "" then m
  else if value = "" then
    { m with extras := m.extras.filter (fun p => !(p.1 == key)) }
  else
    { m with extras := m.extras.filter (fun p => !(p.1 == key)) ++ [(key, value)] }

/-- `UploadMetadata.GetExtra`: `""` for an absent key (or empty key). -/
def getExtra (m : UploadMetadata) (key : String) : String :=
  if key = "" then ""
  else ((m.extras.find? (fun p => p.1 == key)).map (·.2)).getD ""

/-- The wire struct `uploadMetadataJSON` after `json.Unmarshal`: the six
current fields plus the two legacy keys (`""` models an absent or empty
legacy field — `encoding/json` leaves the zero value either way). -/
structure UploadMetadataJSON where
  size : Int
  sliceSize : Int
  contentMD5 : String
  sliceMD5 : String
  blockList : List String
  extras : List (String × String)
  uploadURL : String
  fileSHA1 : String
deriving DecidableEq

/-- `UploadMetadata.UnmarshalJSON` after the inner `json.Unmarshal` into
the aux struct: copy the current fields, then fold each non-empty legacy
field into `Extras` via `SetExtra`. -/
def unmarshalUploadMetadata (aux : UploadMetadataJSON) : UploadMetadata :=
  let m : UploadMetadata :=
    { size := aux.size
      sliceSize := aux.sliceSize
      contentMD5 := aux.contentMD5
      sliceMD5 := aux.sliceMD5
      blockList := aux.blockList
      extras := aux.extras }
  let m := if aux.uploadURL ≠ "" then setExtra m "upload_url" aux.uploadURL else m
  if aux.fileSHA1 ≠ "" then setExtra m "file_sha1" aux.fileSHA1 else m

/-- The top-level keys of `UploadMetadata.MarshalJSON` output: marshalling
goes through the aux struct with both legacy fields left at `""`
(`omitempty` drops them), and `extras` is emitted only when non-empty. -/
def marshalTopLevelKeys (m : UploadMetadata) : List String :=
  ["size", "slice_size", "content_md5", "slice_md5", "block_list"]
    ++ (if m.extras.isEmpty then [] else ["extras"])

/-- In-memory `cache.UploadCache` state (the part_000 variant with a
fixed metadata path and the retain flag); `""` models an unset string
field, `keep` is the normalised keep set. -/
structure UploadCacheState where
  cachedPath : String
  tempFile : String
  keep : List String
  metadata : Option UploadMetadata
  metadataPath : String
  retainMeta : Bool
deriving DecidableEq

/-- `cache.normalizePath`, i.e. `filepath.Abs` relative to the working
directory `cwd`: `""` resolves to `cwd` itself, absolute paths are kept,
relative paths are joined onto `cwd` (lexical cleaning of `.`/`..`
segments is not modelled; no embedded property involves such segments). -/
def normalizePath (cwd p : String) : String :=
  if p = "" then cwd
  else if p.toList.head? == some '/' then p
  else cwd ++ "/" ++ p

/-- `cache.NewUploadCache` without options: a non-empty seed path becomes
the normalised `cachedPath`. -/
def newUploadCache (cwd path : String) : UploadCacheState :=
  { cachedPath := if path = "" then "" else normalizePath cwd path
    tempFile := ""
    keep := []
    metadata := none
    metadataPath := ""
    retainMeta := false }

/-- Set-insert into the keep list. -/
def keepInsert (l : List String) (x : String) : List String :=
  if l.contains x then l else l ++ [x]

/-- `UploadCache.SetCachedPath`. -/
def setCachedPath (cwd : String) (s : UploadCacheState) (p : String) : UploadCacheState :=
  if p = "" then s
  else { s with cachedPath := normalizePath cwd p, metadata := none }

/-- `UploadCache.RegisterTemp`. -/
def registerTemp (cwd : String) (s : UploadCacheState) (p : String) : UploadCacheState :=
  if p = "" then s
  else { s with tempFile := normalizePath cwd p, metadata := none }

/-- `UploadCache.MarkKeep`. -/
def markKeep (cwd : String) (s : UploadCacheState) (p : String) : UploadCacheState :=
  if p = "" then s
  else { s with keep := keepInsert s.keep (normalizePath cwd p) }

/-- `UploadCache.ShouldKeep`: empty input is never kept; otherwise the
normalised path is kept when it equals a non-empty `cachedPath` or is in
the keep set. -/
def shouldKeep (cwd : String) (s : UploadCacheState) (p : String) : Bool :=
  if p = "" then false
  else
    let nPath := normalizePath cwd p
    if s.cachedPath ≠ "" && s.cachedPath == nPath then true
    else s.keep.contains nPath

/-- `UploadCache.currentPathLocked`. -/
def currentPathLocked (s : UploadCacheState) : String :=
  if s.tempFile ≠ "" then s.tempFile else s.cachedPath

/-- `UploadCache.metadataPathLocked` (part_000): a keyed metadata path
wins; otherwise `<currentPath>.meta`, or `""` when no path is known. -/
def metadataPathLocked (s : UploadCacheState) : String :=
  if s.metadataPath ≠ "" then s.metadataPath
  else
    let path := currentPathLocked s
    if path = "" then "" else path ++ ".meta"

/-- The filesystem as an association list from paths to file contents. -/
def fsRead (fs : List (String × String)) (p : String) : Option String :=
  (fs.find? (fun e => e.1 == p)).map (·.2)

/-- `os.Remove` on the modelled filesystem (removing a missing file is
the swallowed `IsNotExist` case). -/
def fsRemove (fs : List (String × String)) (p : String) : List (String × String) :=
  fs.filter (fun e => !(e.1 == p))

/-- `os.WriteFile` on the modelled filesystem (mode 0600 carries no
content in the model). -/
def fsWrite (fs : List (String × String)) (p v : String) : List (String × String) :=
  fsRemove fs p ++ [(p, v)]

/-- An upload cache together with the filesystem it touches. -/
structure CacheWorld where
  cache : UploadCacheState
  fs : List (String × String)
deriving DecidableEq

/-- Errors surfaced by `LoadMetadata`: the not-found error (`os.ErrNotExist`
or a failing `os.ReadFile`) and a JSON decode failure. -/
inductive MetaErr where
  | notFound
  | decodeFailed
deriving DecidableEq

/-- `UploadCache.LoadMetadata`: cached copy if present, else read and
decode the sidecar, caching the result.  `decode` models
`json.Unmarshal` of the file contents.  (Clones are identities in this
value-semantics model.) -/
def loadMetadata (decode : String → Option UploadMetadata) (w : CacheWorld) :
    CacheWorld × Except MetaErr UploadMetadata :=
  match w.cache.metadata with
  | some m => (w, .ok m)
  | none =>
    let path := metadataPathLocked w.cache
    if path = "" then (w, .error .notFound)
    else
      match fsRead w.fs path with
      | none => (w, .error .notFound)
      | some data =>
        match decode data with
        | none => (w, .error .decodeFailed)
        | some m => ({ w with cache := { w.cache with metadata := some m } }, .ok m)

/-- `UploadCache.SaveMetadata`: `none` clears the in-memory metadata and
removes the sidecar; otherwise store a clone and write the encoded JSON
to the sidecar.  `encode` models `json.Marshal`. -/
def saveMetadata (encode : UploadMetadata → String) (w : CacheWorld)
    (meta : Option UploadMetadata) : CacheWorld × Option MetaErr :=
  match meta with
  | none =>
    let w := { w with cache := { w.cache with metadata := none } }
    let path := metadataPathLocked w.cache
    if path = "" then (w, none)
    else ({ w with fs := fsRemove w.fs path }, none)
  | some m =>
    let w := { w with cache := { w.cache with metadata := some m } }
    let path := metadataPathLocked w.cache
    if path = "" then (w, none)
    else ({ w with fs := fsWrite w.fs path (encode m) }, none)

/-- `UploadCache.RemoveMetadataFile`. -/
def removeMetadataFile (w : CacheWorld) : CacheWorld :=
  let path := metadataPathLocked w.cache
  if path = "" then w else { w with fs := fsRemove w.fs path }

/-- The public mutating operations of `UploadCache` (used to quantify
over arbitrary interleavings). -/
inductive CacheOp where
  | setCached (p : String)
  | regTemp (p : String)
  | mark (p : String)
  | save (m : Option UploadMetadata)
  | load
  | removeMetaFile
  | markRetain
deriving DecidableEq

/-- One public operation applied to the world. -/
def cacheStep (cwd : String) (encode : UploadMetadata → String)
    (decode : String → Option UploadMetadata) (w : CacheWorld) :
    CacheOp → CacheWorld
  | .setCached p => { w with cache := setCachedPath cwd w.cache p }
  | .regTemp p => { w with cache := registerTemp cwd w.cache p }
  | .mark p => { w with cache := markKeep cwd w.cache p }
  | .save m => (saveMetadata encode w m).1
  | .load => (loadMetadata decode w).1
  | .removeMetaFile => removeMetadataFile w
  | .markRetain => { w with cache := { w.cache with retainMeta := true } }

/-- Run a sequence of public operations. -/
def runCacheOps (cwd : String) (encode : UploadMetadata → String)
    (decode : String → Option UploadMetadata) (w : CacheWorld)
    (ops : List CacheOp) : CacheWorld :=
  ops.foldl (cacheStep cwd encode decode) w

/-! ### Shared helper lemmas -/

/-- Membership in an `orderedInsert` result. -/
theorem mem_orderedInsert {le : α → α → Bool} {a x : α} {l : List α} :
    x ∈ orderedInsert le a l ↔ x = a ∨ x ∈ l := by
  induction l with
  | nil => simp [orderedInsert]
  | cons b l ih =>
    simp only [orderedInsert]
    split
    · simp
    · simp only [List.mem_cons, ih]
      tauto

/-- `insertionSort` preserves membership. -/
theorem mem_insertionSort {le : α → α → Bool} {x : α} {l : List α} :
    x ∈ insertionSort le l ↔ x ∈ l := by
  induction l with
  | nil => simp [insertionSort]
  | cons a l ih =>
    simp [insertionSort, mem_orderedInsert, ih]

/-! ### C1 — pagination of the indexed list query -/

/-- A regex compiler that is never consulted (used for requests without a
`regex` parameter). -/
def compileNone : String → Except String (String → Bool) :=
  fun _ => .error "unused"

/-- A task-list request with every query parameter absent. -/
def rawQueryEmpty : RawTaskListQuery :=
  { page := none, pageSize := none, orderBy := none, order := none,
    mine := none, regex := none }

/-- The query produced by parsing `rawQueryEmpty`. -/
def defaultParsedQuery : TaskListQuery :=
  { page := 1, pageSize := 20, orderBy := "name", reverse := false,
    mine := false, regex := none, keyword := "" }

/-- The page coercion always yields at least 1. -/
theorem parsePageParam_ge_one (s : String) : 1 ≤ parsePageParam s := by
  unfold parsePageParam
  split
  · omega
  · split <;> omega

/-- The defaulted page size is always at least 1. -/
theorem parsePageSizeBase_ge_one (s : String) : 1 ≤ parsePageSizeBase s := by
  unfold parsePageSizeBase defaultTaskPageSize
  split
  · omega
  · split <;> omega

/-- The page-size coercion always lands in `[1, 200]`. -/
theorem parsePageSizeParam_bounds (s : String) :
    1 ≤ parsePageSizeParam s ∧ parsePageSizeParam s ≤ maxTaskPageSize := by
  have h := parsePageSizeBase_ge_one s
  unfold parsePageSizeParam maxTaskPageSize
  split <;> omega

/-- A successful parse copies the coerced page values into the query. -/
theorem parseTaskListQuery_fields (compile : String → Except String (String → Bool))
    (raw : RawTaskListQuery) (q : TaskListQuery)
    (hq : parseTaskListQuery compile raw = .ok q) :
    q.page = parsePageParam (raw.page.getD "1") ∧
    q.pageSize = parsePageSizeParam (raw.pageSize.getD "20") := by
  simp only [parseTaskListQuery] at hq
  split at hq
  · split at hq
    · exact absurd hq (by simp)
    · rw [Except.ok.injEq] at hq
      subst hq
      exact ⟨rfl, rfl⟩
  · rw [Except.ok.injEq] at hq
    subst hq
    exact ⟨rfl, rfl⟩

/-- Every successfully parsed task-list query has `page ≥ 1` and
`1 ≤ pageSize ≤ 200`. -/
theorem parseTaskListQuery_bounds (compile : String → Except String (String → Bool))
    (raw : RawTaskListQuery) (q : TaskListQuery)
    (hq : parseTaskListQuery compile raw = .ok q) :
    1 ≤ q.page ∧ 1 ≤ q.pageSize ∧ q.pageSize ≤ maxTaskPageSize := by
  obtain ⟨hp, hs⟩ := parseTaskListQuery_fields compile raw q hq
  rw [hp, hs]
  exact ⟨parsePageParam_ge_one _, (parsePageSizeParam_bounds _).1,
    (parsePageSizeParam_bounds _).2⟩

/-- C1 (amended): inside `ListTaskRecords`, a page below 1 is coerced to
1, a pageSize below 1 becomes the default 20, and the rows returned are
the sorted matches from offset `(page-1)·pageSize`, at most `pageSize`
many — but `ListTaskRecords` itself applies no 200 cap.  The cap to 200
is applied by `parseTaskListQuery`, so every task-list HTTP request
reaches `ListTaskRecords` with `1 ≤ pageSize ≤ 200` and `page ≥ 1`. -/
theorem c1_list_pagination (table : List TaskRecord) (ty : String)
    (states : List Int) (cid : Nat) (kw : String) (page pageSize : Int)
    (compile : String → Except String (String → Bool)) (raw : RawTaskListQuery)
    (q : TaskListQuery) (hq : parseTaskListQuery compile raw = .ok q) :
    (ListTaskRecords table ty states cid kw page pageSize).1 =
      ((insertionSort recordOrd (table.filter (taskRecordMatches ty states cid kw))).drop
        ((((if page < 1 then 1 else page) - 1) * (if pageSize < 1 then 20 else pageSize)).toNat)).take
        ((if pageSize < 1 then 20 else pageSize).toNat) ∧
    (ListTaskRecords table ty states cid kw page pageSize).2 =
      Int.ofNat (table.filter (taskRecordMatches ty states cid kw)).length ∧
    (1 ≤ q.page ∧ 1 ≤ q.pageSize ∧ q.pageSize ≤ maxTaskPageSize) :=
  ⟨rfl, rfl, parseTaskListQuery_bounds compile raw q hq⟩

/-- A row matched by the unrestricted query on the `"copy"` kind. -/
def c1Row : TaskRecord :=
  { taskId := "", ttype := "copy", name := "", creator := "", creatorId := 0,
    creatorRole := 0, state := 0, status := "", progress := 0,
    startTime := none, endTime := none, totalBytes := 0, error := "" }

set_option maxRecDepth 8000 in
/-- C1 counterexample: `ListTaskRecords` does not cap the page size at
200 — its normalised page size for the input 300 is 300, and a query
with `pageSize = 202` over 202 matching rows returns all 202 of them
(the claimed cap would allow at most 200). -/
theorem c1_counterexample :
    (listTaskRecordsPage 1 300).2.1 = 300 ∧
    (ListTaskRecords (List.replicate 202 c1Row) "copy" [] 0 "" 1 202).1.length = 202 := by
  constructor
  · rfl
  · rfl

/-- C1 witness: the amended theorem applied to the parameterless request,
whose parse succeeds with page 1 and page size 20. -/
theorem c1_witness :
    parseTaskListQuery compileNone rawQueryEmpty = .ok defaultParsedQuery ∧
    (1 ≤ defaultParsedQuery.page ∧ 1 ≤ defaultParsedQuery.pageSize ∧
      defaultParsedQuery.pageSize ≤ maxTaskPageSize) :=
  ⟨rfl, (c1_list_pagination [] "copy" [] 0 "" 0 0 compileNone rawQueryEmpty
    defaultParsedQuery rfl).2.2⟩

/-! ### C2 — which list-request inputs produce a 400 -/

/-- C2 (amended): only a regex that fails to compile makes a task-list
request fail with 400.  The query parse fails exactly when a non-empty
`regex` parameter fails to compile, and the authenticated handler
responds 400 exactly when the parse fails; bad pagination values are
coerced and an unknown `order_by` key falls back to `"name"` instead of
erroring. -/
theorem c2_only_regex_400 (compile : String → Except String (String → Bool))
    (raw : RawTaskListQuery) (u : User) (manager : List Task)
    (table : List TaskRecord) (ty : String) (useIndex : Bool)
    (states : List TState) :
    ((∃ e, parseTaskListQuery compile raw = .error e) ↔
      (raw.regex.getD "" ≠ "" ∧ ∃ e, compile (raw.regex.getD "") = .error e)) ∧
    (∀ m, taskListHandler (some u) compile raw manager table ty useIndex states
        = .err m 400 ↔ parseTaskListQuery compile raw = .error m) := by
  constructor
  · simp only [parseTaskListQuery]
    split
    · rename_i hkw
      cases hc : compile (raw.regex.getD "") with
      | error e => simp [hkw]
      | ok r => simp [hkw]
    · rename_i hkw
      simp at hkw
      simp [hkw]
  · intro m
    cases hp : parseTaskListQuery compile raw with
    | error e => simp [taskListHandler, hp]
    | ok q =>
      simp only [taskListHandler, hp]
      split <;> simp

/-- A request with unparsable pagination and an unknown order key (and no
regex). -/
def c2BadRaw : RawTaskListQuery :=
  { page := some "abc", pageSize := some "-5", orderBy := some "bogus",
    order := none, mine := none, regex := none }

/-- C2 counterexample: a request with bad pagination (`page=abc`,
`page_size=-5`) and an unknown order key (`order_by=bogus`) succeeds with
200 — the values are coerced — instead of responding 400 as claimed. -/
theorem c2_counterexample :
    taskListHandler (some { id := 1, isAdmin := true }) compileNone c2BadRaw
      [] [] "copy" false doneStates = .ok [] 0 := rfl

/-- A request whose regex parameter fails to compile. -/
def c2RegexRaw : RawTaskListQuery :=
  { page := none, pageSize := none, orderBy := none, order := none,
    mine := none, regex := some "(" }

/-- A compiler that rejects every pattern with a fixed message. -/
def compileFail : String → Except String (String → Bool) :=
  fun _ => .error "error parsing regexp"

/-- C2 witness: the amended theorem at a concrete failing regex — the
handler responds 400 with the compiler's message. -/
theorem c2_witness :
    taskListHandler (some { id := 1, isAdmin := true }) compileFail c2RegexRaw
      [] [] "copy" false doneStates = .err "error parsing regexp" 400 :=
  ((c2_only_regex_400 compileFail c2RegexRaw { id := 1, isAdmin := true }
    [] [] "copy" false doneStates).2 "error parsing regexp").mpr rfl

/-! ### C3 — targeted actions: 404 for missing or unauthorised, never 403 -/

/-- C3 (amended): for an authenticated caller, a missing tid yields 404
`"task not found"`, and an existing task whose creator is present yields
the same 404 when the caller is neither an admin nor that creator; no
input ever yields a 403.  (When the found task has no creator and the
caller is not an admin, the Go code dereferences a nil pointer instead
of responding — see the C10 theorems.) -/
theorem c3_targeted_404 (u : User) (manager : List Task) (tid : String) :
    (managerGetByID manager tid = none →
      getTargetedHandler (some u) manager tid = .resp "task not found" 404) ∧
    (∀ t cr, managerGetByID manager tid = some t → t.creator = some cr →
      u.isAdmin = false → u.id ≠ cr.id →
      getTargetedHandler (some u) manager tid = .resp "task not found" 404) ∧
    (∀ user? m, getTargetedHandler user? manager tid ≠ TargetedResp.resp m 403) := by
  refine ⟨?_, ?_, ?_⟩
  · intro h
    simp [getTargetedHandler, h]
  · intro t cr ht hcr hadm hne
    simp [getTargetedHandler, ht, hadm, hcr, hne]
  · intro user? m
    unfold getTargetedHandler
    match user? with
    | none => simp
    | some v =>
      cases h : managerGetByID manager tid with
      | none => simp
      | some t =>
        cases hadm : v.isAdmin with
        | true => simp [hadm]
        | false =>
          cases hcr : t.creator with
          | none => simp [hadm, hcr]
          | some cr =>
            simp only [hadm, hcr, Bool.false_eq_true, if_false]
            split <;> simp

/-- A creator-less (system) task visible to the targeted handlers. -/
def c3SysTask : Task :=
  { id := "t1", name := "sys", creator := none, state := .running,
    status := "", progress := .val 0, startTime := none, endTime := none,
    totalBytes := 0, err := none }

/-- C3 counterexample: a non-admin caller asking about an existing task
with no creator — the caller is not the task's creator, yet the handler
does not answer 404: it hits the nil-creator dereference. -/
theorem c3_counterexample :
    getTargetedHandler (some { id := 5, isAdmin := false }) [c3SysTask] "t1"
        = .nilPanic ∧
    TargetedResp.nilPanic ≠ .resp "task not found" 404 := by
  constructor
  · rfl
  · simp

/-- C3 witness: the amended theorem at a concrete missing tid. -/
theorem c3_witness :
    managerGetByID [] "x" = none ∧
    getTargetedHandler (some { id := 1, isAdmin := false }) [] "x"
      = .resp "task not found" 404 :=
  ⟨rfl, (c3_targeted_404 { id := 1, isAdmin := false } [] "x").1 rfl⟩

/-! ### C10 — nil-creator dereference in the action handlers -/

/-- The batch loop cannot hit the nil dereference when every task of the
manager has a creator. -/
theorem batchLoop_ne_none (isAdmin : Bool) (uid : Nat) (manager : List Task)
    (h : ∀ x ∈ manager, x.creator ≠ none) (tids : List String)
    (acc : List (String × String)) :
    batchLoop isAdmin uid manager acc tids ≠ none := by
  induction tids generalizing acc with
  | nil => simp [batchLoop]
  | cons tid rest ih =>
    unfold batchLoop
    split
    · exact ih _
    · rename_i t hf
      split
      · exact ih _
      · split
        · rename_i hcr
          exact absurd hcr (h t (List.mem_of_find?_eq_some hf))
        · split
          · exact ih _
          · exact ih _

/-- C10: for a non-admin caller and an existing creator-less task, both
the targeted and the batch handler evaluate `uid != t.GetCreator().ID`
on a nil creator (the panic outcome); and neither handler can reach that
outcome when every task of the manager has a creator, which is exactly
the precondition under which the 404 branch is safe. -/
theorem c10_nil_creator_panic (u : User) (t : Task) :
    (u.isAdmin = false → t.creator = none →
      getTargetedHandler (some u) [t] t.id = .nilPanic ∧
      getBatchHandler (some u) [t] (some [t.id]) = .nilPanic) ∧
    (∀ manager tid, (∀ x ∈ manager, x.creator ≠ none) →
      getTargetedHandler (some u) manager tid ≠ .nilPanic) ∧
    (∀ manager tids, (∀ x ∈ manager, x.creator ≠ none) →
      getBatchHandler (some u) manager (some tids) ≠ .nilPanic) := by
  refine ⟨?_, ?_, ?_⟩
  · intro hadm hcr
    have hfind : managerGetByID [t] t.id = some t := by
      simp [managerGetByID]
    constructor
    · simp [getTargetedHandler, hfind, hadm, hcr]
    · simp [getBatchHandler, batchLoop, hfind, hadm, hcr]
  · intro manager tid h
    unfold getTargetedHandler
    cases hf : managerGetByID manager tid with
    | none => simp
    | some t' =>
      cases hadm : u.isAdmin with
      | true => simp [hadm]
      | false =>
        cases hcr : t'.creator with
        | none => exact absurd hcr (h t' (List.mem_of_find?_eq_some hf))
        | some cr =>
          simp only [hadm, hcr, Bool.false_eq_true, if_false]
          split <;> simp
  · intro manager tids h
    unfold getBatchHandler
    cases hb : batchLoop u.isAdmin u.id manager [] tids with
    | none => exact absurd hb (batchLoop_ne_none u.isAdmin u.id manager h tids [])
    | some errs => simp [hb]

/-- A creator-less task used to exercise the C10 panic paths. -/
def c10SysTask : Task :=
  { id := "t9", name := "s", creator := none, state := .pending,
    status := "", progress := .nan, startTime := none, endTime := none,
    totalBytes := 0, err := none }

/-- C10 witness: the panic outcome at a concrete non-admin caller and a
concrete creator-less task, via the C10 theorem. -/
theorem c10_witness :
    c10SysTask.creator = none ∧
    getTargetedHandler (some { id := 2, isAdmin := false }) [c10SysTask] "t9"
      = .nilPanic ∧
    getBatchHandler (some { id := 2, isAdmin := false }) [c10SysTask] (some ["t9"])
      = .nilPanic :=
  ⟨rfl,
    ((c10_nil_creator_panic { id := 2, isAdmin := false } c10SysTask).1 rfl rfl).1,
    ((c10_nil_creator_panic { id := 2, isAdmin := false } c10SysTask).1 rfl rfl).2⟩

/-! ### C4 — owner restriction of the list endpoints -/

/-- A task passing the live filter with the owner restriction on carries
the caller's creator id. -/
theorem livePred_creatorID (states : List TState) (isAdmin : Bool) (uid : Nat)
    (regex : Option (String → Bool)) (t : Task)
    (h : livePred states isAdmin uid true regex t = true) :
    taskCreatorID t = uid := by
  simp only [livePred] at h
  by_contra hne
  have hC : (true && taskCreatorID t != uid) = true := by
    simpa [bne_iff_ne] using hne
  by_cases hA : (!states.contains t.state) = true
  · rw [if_pos hA] at h
    simp at h
  · rw [if_neg hA] at h
    by_cases hB : (!isAdmin && taskCreatorID t != uid) = true
    · rw [if_pos hB] at h
      simp at h
    · rw [if_neg hB, if_pos hC] at h
      simp at h

/-- A row matching the index query with a non-zero creator filter carries
that creator id. -/
theorem taskRecordMatches_creatorId (ty : String) (states : List Int)
    (cid : Nat) (kw : String) (r : TaskRecord)
    (h : taskRecordMatches ty states cid kw r = true) (hcid : cid ≠ 0) :
    r.creatorId = cid := by
  unfold taskRecordMatches at h
  simp only [Bool.and_eq_true, Bool.or_eq_true, beq_iff_eq] at h
  rcases h.1.2 with h0 | h1
  · exact absurd h0 hcid
  · exact h1

/-- C4 (amended): for a non-admin caller — or any caller with `mine=true`
— whose uid is non-zero, every task returned by either the indexed path
or the live-manager path has creator id equal to the caller's uid.  (The
non-zero proviso is forced by the code: the indexed path drops the
creator filter entirely when `creatorID = 0`.) -/
theorem c4_owner_restriction (u : User)
    (compile : String → Except String (String → Bool)) (raw : RawTaskListQuery)
    (q : TaskListQuery) (manager : List Task) (table : List TaskRecord)
    (ty : String) (states : List TState)
    (hq : parseTaskListQuery compile raw = .ok q)
    (hres : q.mine = true ∨ u.isAdmin = false) (huid : u.id ≠ 0) :
    (∀ r ∈ (taskListIndexRows table ty states u.isAdmin u.id q).1, r.creatorId = u.id) ∧
    (∀ t ∈ taskListLiveTasks manager states u.isAdmin u.id q, taskCreatorID t = u.id) := by
  have hro : (q.mine || !u.isAdmin) = true := by
    rcases hres with h | h <;> simp [h]
  constructor
  · intro r hr
    simp only [taskListIndexRows, hro, if_true, ListTaskRecords] at hr
    have hr2 := mem_insertionSort.mp (List.mem_of_mem_drop (List.mem_of_mem_take hr))
    exact taskRecordMatches_creatorId _ _ _ _ _ ((List.mem_filter.mp hr2).2) huid
  · intro t ht
    have ht1 : t ∈ taskListLiveAll manager states u.isAdmin u.id q :=
      List.mem_of_mem_drop (List.mem_of_mem_take ht)
    simp only [taskListLiveAll, sortTasks, mem_insertionSort, hro] at ht1
    have hp := (List.mem_filter.mp ht1).2
    exact livePred_creatorID _ _ _ _ _ hp

/-- A `"copy"` row belonging to creator 9 in a succeeded state. -/
def c4Rec : TaskRecord :=
  { taskId := "r1", ttype := "copy", name := "n", creator := "alice",
    creatorId := 9, creatorRole := 2, state := 9, status := "",
    progress := 100, startTime := none, endTime := none, totalBytes := 0,
    error := "" }

/-- C4 counterexample: a non-admin caller whose uid is 0 receives
creator 9's row from the indexed path — the `creatorID != 0` guard
disables the owner filter, so a task of another creator is returned to a
non-admin. -/
theorem c4_counterexample :
    parseTaskListQuery compileNone rawQueryEmpty = .ok defaultParsedQuery ∧
    (taskListIndexRows [c4Rec] "copy" doneStates false 0 defaultParsedQuery).1 = [c4Rec] ∧
    c4Rec.creatorId = 9 ∧
    taskListHandler (some { id := 0, isAdmin := false }) compileNone rawQueryEmpty
      [] [c4Rec] "copy" true doneStates = .ok (recordsToInfos [c4Rec]) 1 := by
  exact ⟨rfl, rfl, rfl, rfl⟩

/-- A `"copy"` row belonging to creator 7. -/
def c4RecOwn : TaskRecord :=
  { taskId := "r2", ttype := "copy", name := "m", creator := "bob",
    creatorId := 7, creatorRole := 2, state := 9, status := "",
    progress := 100, startTime := none, endTime := none, totalBytes := 0,
    error := "" }

/-- C4 witness: the amended theorem at a concrete non-admin caller with
uid 7 — the row returned by the indexed path is the caller's own. -/
theorem c4_witness :
    parseTaskListQuery compileNone rawQueryEmpty = .ok defaultParsedQuery ∧
    (7 : Nat) ≠ 0 ∧ c4RecOwn.creatorId = 7 :=
  ⟨rfl, by decide,
    (c4_owner_restriction { id := 7, isAdmin := false } compileNone rawQueryEmpty
      defaultParsedQuery [] [c4RecOwn] "copy" doneStates rfl (Or.inr rfl)
      (by decide)).1 c4RecOwn (by decide)⟩

/-! ### C5 — index replacement semantics -/

/-- Folding an operation over the chunks of a list is folding it over the
list: the batching of `CreateInBatches` does not change the final
table. -/
theorem chunksOf_foldl (f : β → α → β) (n : Nat) (l : List α) (init : β) :
    (chunksOf n l).foldl (fun acc c => c.foldl f acc) init = l.foldl f init := by
  match l with
  | [] => simp [chunksOf]
  | a :: l =>
    rw [chunksOf, List.foldl_cons, chunksOf_foldl f n (l.drop (n - 1)), List.foldl_cons]
    conv_rhs => rw [List.foldl_cons, ← List.take_append_drop (n - 1) l, List.foldl_append]
termination_by l.length
decreasing_by
  simp only [List.length_drop, List.length_cons]
  omega

/-- Upserting a row whose key conflicts with nothing is an append. -/
theorem upsertOne_fresh (table : List TaskRecord) (r : TaskRecord)
    (h : ∀ x ∈ table, sameKey r x = false) :
    upsertOne table r = table ++ [r] := by
  have hc : ¬(table.any (fun x => sameKey r x) = true) := by
    rw [List.any_eq_true]
    rintro ⟨x, hmem, hkey⟩
    rw [h x hmem] at hkey
    exact absurd hkey (by simp)
  unfold upsertOne
  rw [if_neg hc]

/-- Sequentially upserting rows of the cleared kind with pairwise
distinct ids into `cleared ++ done` appends them all. -/
theorem foldl_upsert_fresh (ty : String) (recs : List TaskRecord) :
    ∀ (done cleared : List TaskRecord),
    (∀ x ∈ cleared, (x.ttype == ty) = false) →
    (∀ x ∈ recs, x.ttype = ty) →
    (∀ x ∈ done, ∀ r ∈ recs, x.taskId ≠ r.taskId) →
    (recs.map TaskRecord.taskId).Nodup →
    recs.foldl upsertOne (cleared ++ done) = cleared ++ done ++ recs := by
  induction recs with
  | nil => intro done cleared _ _ _ _; simp
  | cons r rest ih =>
    intro done cleared hcl hrecs hfresh hnodup
    have hstep : upsertOne (cleared ++ done) r = (cleared ++ done) ++ [r] := by
      apply upsertOne_fresh
      intro x hx
      rcases List.mem_append.mp hx with hxc | hxd
      · have hty : (x.ttype == ty) = false := hcl x hxc
        have hrty : r.ttype = ty := hrecs r (by simp)
        simp only [sameKey, Bool.and_eq_false_iff]
        right
        simp only [beq_eq_false_iff_ne] at hty ⊢
        rw [hrty]
        exact fun hh => hty hh.symm
      · have hne := hfresh x hxd r (by simp)
        simp only [sameKey, Bool.and_eq_false_iff]
        left
        simp only [beq_eq_false_iff_ne]
        exact fun hh => hne hh.symm
    rw [List.map_cons, List.nodup_cons] at hnodup
    rw [List.foldl_cons, hstep]
    have hassoc : cleared ++ done ++ [r] = cleared ++ (done ++ [r]) := by
      simp [List.append_assoc]
    rw [hassoc, ih (done ++ [r]) cleared hcl
      (fun x hx => hrecs x (List.mem_cons_of_mem r hx))
      ?fresh hnodup.2]
    · simp [List.append_assoc]
    case fresh =>
      intro x hx r' hr'
      rcases List.mem_append.mp hx with hxd | hxr
      · exact hfresh x hxd r' (List.mem_cons_of_mem r hr')
      · have hxeq : x = r := by simpa using hxr
        subst hxeq
        intro heq
        have hmm : r'.taskId ∈ rest.map TaskRecord.taskId :=
          List.mem_map_of_mem TaskRecord.taskId hr'
        rw [← heq] at hmm
        exact hnodup.1 hmm

/-- C5: `UpsertTaskRecordsFromTasks` (over tasks with pairwise distinct
ids, as a manager registry guarantees) deletes every row of the kind and
appends the converted records; afterwards the rows of the kind are
exactly the converted tasks, in order, and rows of other kinds are
untouched. -/
theorem c5_upsert_replaces (table : List TaskRecord) (ty : String)
    (tasks : List Task) (h : (tasks.map Task.id).Nodup) :
    UpsertTaskRecordsFromTasks table ty tasks =
      deleteByType table ty ++ tasks.map (fun t => convertToRecord ty (toLite t)) ∧
    (UpsertTaskRecordsFromTasks table ty tasks).filter (fun r => r.ttype == ty) =
      tasks.map (fun t => convertToRecord ty (toLite t)) ∧
    (UpsertTaskRecordsFromTasks table ty tasks).filter (fun r => !(r.ttype == ty)) =
      table.filter (fun r => !(r.ttype == ty)) := by
  have hty : ∀ x ∈ tasks.map (fun t => convertToRecord ty (toLite t)), x.ttype = ty := by
    intro x hx
    rcases List.mem_map.mp hx with ⟨t, _, rfl⟩
    rfl
  have hids : ((tasks.map (fun t => convertToRecord ty (toLite t))).map
      TaskRecord.taskId).Nodup := by
    have : (tasks.map (fun t => convertToRecord ty (toLite t))).map TaskRecord.taskId
        = tasks.map Task.id := by
      simp [Function.comp, convertToRecord, toLite]
    rw [this]
    exact h
  have hcl : ∀ x ∈ deleteByType table ty, (x.ttype == ty) = false := by
    intro x hx
    have := (List.mem_filter.mp hx).2
    simpa using this
  have hmain : UpsertTaskRecordsFromTasks table ty tasks =
      deleteByType table ty ++ tasks.map (fun t => convertToRecord ty (toLite t)) := by
    unfold UpsertTaskRecordsFromTasks ReplaceTaskRecords
    set recs := tasks.map (fun t => convertToRecord ty (toLite t)) with hrecs
    by_cases hemp : recs.isEmpty
    · rw [if_pos hemp]
      rw [List.isEmpty_iff] at hemp
      simp [hemp]
    · rw [if_neg hemp]
      rw [chunksOf_foldl upsertOne 500 recs (deleteByType table ty)]
      have := foldl_upsert_fresh ty recs [] (deleteByType table ty) hcl hty
        (by intro x hx; simp at hx) hids
      simpa using this
  refine ⟨hmain, ?_, ?_⟩
  · rw [hmain, List.filter_append]
    have h1 : (deleteByType table ty).filter (fun r => r.ttype == ty) = [] := by
      rw [List.filter_eq_nil_iff]
      intro a ha
      simp [hcl a ha]
    have h2 : (tasks.map (fun t => convertToRecord ty (toLite t))).filter
        (fun r => r.ttype == ty) = tasks.map (fun t => convertToRecord ty (toLite t)) := by
      rw [List.filter_eq_self]
      intro a ha
      simp [hty a ha]
    rw [h1, h2, List.nil_append]
  · rw [hmain, List.filter_append]
    have h1 : (deleteByType table ty).filter (fun r => !(r.ttype == ty)) =
        table.filter (fun r => !(r.ttype == ty)) := by
      unfold deleteByType
      rw [List.filter_eq_self.mpr]
      intro a ha
      exact (List.mem_filter.mp ha).2
    have h2 : (tasks.map (fun t => convertToRecord ty (toLite t))).filter
        (fun r => !(r.ttype == ty)) = [] := by
      rw [List.filter_eq_nil_iff]
      intro a ha
      simp [hty a ha]
    rw [h1, h2, List.append_nil]

/-- Two distinct-id tasks of creator 7. -/
def c5Task1 : Task :=
  { id := "a1", name := "copy a", creator := some { id := 7, username := "bob", role := 2 },
    state := .succeeded, status := "done", progress := .val 100,
    startTime := some 10, endTime := some 20, totalBytes := 5, err := none }

/-- Second task, still running, with NaN progress. -/
def c5Task2 : Task :=
  { id := "a2", name := "copy b", creator := some { id := 7, username := "bob", role := 2 },
    state := .running, status := "", progress := .nan,
    startTime := some 11, endTime := none, totalBytes := 0, err := some "boom" }

/-- A pre-existing row of another kind that the upsert must not touch. -/
def c5OtherRow : TaskRecord :=
  { taskId := "z", ttype := "move", name := "mv", creator := "eve",
    creatorId := 3, creatorRole := 2, state := 1, status := "",
    progress := 50, startTime := none, endTime := none, totalBytes := 1,
    error := "" }

/-- A stale row of the `"copy"` kind that the upsert must delete. -/
def c5StaleRow : TaskRecord :=
  { taskId := "old", ttype := "copy", name := "stale", creator := "eve",
    creatorId := 3, creatorRole := 2, state := 8, status := "",
    progress := 0, startTime := none, endTime := none, totalBytes := 0,
    error := "x" }

/-- C5 witness: the replacement theorem at a concrete table and two
concrete tasks — the stale `"copy"` row disappears, the `"move"` row
survives, and the kind's rows equal the converted tasks. -/
theorem c5_witness :
    (([c5Task1, c5Task2].map Task.id).Nodup) ∧
    UpsertTaskRecordsFromTasks [c5OtherRow, c5StaleRow] "copy" [c5Task1, c5Task2] =
      [c5OtherRow, convertToRecord "copy" (toLite c5Task1),
        convertToRecord "copy" (toLite c5Task2)] :=
  ⟨by decide,
    by
      have := (c5_upsert_replaces [c5OtherRow, c5StaleRow] "copy"
        [c5Task1, c5Task2] (by decide)).1
      rw [this]
      rfl⟩

/-! ### C6 — error discipline of the combined writer -/

/-- C6 (amended): the combined writer attempts the snapshot write only
when persistence is enabled; it attempts deserialisation (and then the
index refresh) exactly when the snapshot write step did not fail — in
particular always when persistence is disabled; it returns `nil` in every
other situation (deserialisation and index failures included, the result
being independent of the parse outcome and the index write outcome); and
only a snapshot-store write failure propagates as an error. -/
theorem c6_combined_writer (persistEnabled snapshotWriteOK indexOK : Bool)
    (parse : String → Option (List Task)) (data : String) :
    ((updateTaskDataAndIndex persistEnabled snapshotWriteOK indexOK parse data).1.snapshotAttempted = true
      → persistEnabled = true) ∧
    ((updateTaskDataAndIndex persistEnabled snapshotWriteOK indexOK parse data).1.deserialiseAttempted = true
      ↔ ¬(persistEnabled = true ∧ snapshotWriteOK = false)) ∧
    ((updateTaskDataAndIndex persistEnabled snapshotWriteOK indexOK parse data).2 = none
      ↔ ¬(persistEnabled = true ∧ snapshotWriteOK = false)) ∧
    (∀ (parse2 : String → Option (List Task)) (indexOK2 : Bool),
      (updateTaskDataAndIndex persistEnabled snapshotWriteOK indexOK2 parse2 data).2
        = (updateTaskDataAndIndex persistEnabled snapshotWriteOK indexOK parse data).2) := by
  refine ⟨?_, ?_, ?_, ?_⟩
  · intro hs
    cases persistEnabled with
    | true => rfl
    | false =>
      cases hp : parse (normSnapshotContent data) <;>
        simp [updateTaskDataAndIndex, hp] at hs
  · cases persistEnabled <;> cases snapshotWriteOK <;>
      cases hp : parse (normSnapshotContent data) <;>
      simp [updateTaskDataAndIndex, hp]
  · cases persistEnabled <;> cases snapshotWriteOK <;>
      cases hp : parse (normSnapshotContent data) <;>
      simp [updateTaskDataAndIndex, hp]
  · intro parse2 indexOK2
    cases persistEnabled <;> cases snapshotWriteOK <;>
      cases hp : parse (normSnapshotContent data) <;>
      cases hp2 : parse2 (normSnapshotContent data) <;>
      simp [updateTaskDataAndIndex, hp, hp2]

/-- C6 counterexample: when persistence is enabled and the snapshot write
fails, the writer returns the error without ever attempting to
deserialise the snapshot or refresh the index — contradicting "always
attempts to deserialise the input and refresh the index". -/
theorem c6_counterexample :
    (updateTaskDataAndIndex true false true (fun _ => some []) "[]").1.deserialiseAttempted = false ∧
    (updateTaskDataAndIndex true false true (fun _ => some []) "[]").1.indexAttempted = false ∧
    (updateTaskDataAndIndex true false true (fun _ => some []) "[]").2 = some .snapshotErr := by
  exact ⟨rfl, rfl, rfl⟩

/-- A parse that always fails (models undecodable snapshot bytes). -/
def parseFailAll : String → Option (List Task) := fun _ => none

/-- C6 witness: with persistence disabled and an undecodable snapshot the
writer still attempts deserialisation and returns `nil`. -/
theorem c6_witness :
    (updateTaskDataAndIndex false true true parseFailAll "null").1.deserialiseAttempted = true ∧
    (updateTaskDataAndIndex false true true parseFailAll "null").2 = none :=
  ⟨((c6_combined_writer false true true parseFailAll "null").2.1).mpr (by simp),
    ((c6_combined_writer false true true parseFailAll "null").2.2.1).mpr (by simp)⟩

/-! ### C7 — legacy sidecar keys -/

/-- `find?` by one key is unaffected by filtering out a different key. -/
theorem find?_filter_ne (l : List (String × String)) (k kq : String)
    (hne : kq ≠ k) :
    (l.filter (fun p => !(p.1 == k))).find? (fun p => p.1 == kq)
      = l.find? (fun p => p.1 == kq) := by
  induction l with
  | nil => rfl
  | cons a l ih =>
    by_cases hk : a.1 = k
    · have h1 : (!(a.1 == k)) = false := by simp [hk]
      have hkk : ¬(k = kq) := fun h => hne h.symm
      have h2 : (a.1 == kq) = false := by
        rw [hk]
        simp [hkk]
      simp [List.filter_cons, h1, List.find?_cons, h2, ih]
    · have h1 : (!(a.1 == k)) = true := by simp [hk]
      by_cases hq : a.1 = kq
      · have h2 : (a.1 == kq) = true := by simp [hq]
        simp [List.filter_cons, h1, List.find?_cons, h2]
      · have h2 : (a.1 == kq) = false := by simp [hq]
        simp [List.filter_cons, h1, List.find?_cons, h2, ih]

/-- Reading back the key just set. -/
theorem getExtra_setExtra_same (m : UploadMetadata) (k v : String)
    (hk : k ≠ "") (hv : v ≠ "") :
    getExtra (setExtra m k v) k = v := by
  unfold setExtra getExtra
  rw [if_neg hk, if_neg hv, if_neg hk]
  rw [List.find?_append]
  have h1 : (m.extras.filter (fun p => !(p.1 == k))).find? (fun p => p.1 == k) = none := by
    rw [List.find?_eq_none]
    intro x hx
    have h2 := (List.mem_filter.mp hx).2
    simp only [Bool.not_eq_eq_eq_not, Bool.not_true] at h2
    simp [h2]
  rw [h1]
  simp [List.find?]

/-- Setting one key does not change another key's extra. -/
theorem getExtra_setExtra_other (m : UploadMetadata) (k kq v : String)
    (hk : k ≠ "") (hv : v ≠ "") (hne : kq ≠ k) (hkq : kq ≠ "") :
    getExtra (setExtra m k v) kq = getExtra m kq := by
  unfold setExtra getExtra
  rw [if_neg hk, if_neg hv, if_neg hkq, if_neg hkq]
  rw [List.find?_append, find?_filter_ne m.extras k kq hne]
  cases hf : m.extras.find? (fun p => p.1 == kq) with
  | none =>
    have hkk : ¬(k = kq) := fun h => hne h.symm
    have h2 : (k == kq) = false := by simp [hkk]
    simp [List.find?, h2]
  | some a => simp

/-- C7: on read, a non-empty legacy `upload_url` or `file_sha1` field is
folded into `Extras` under that key; on write, the marshalled JSON never
carries a top-level `upload_url` or `file_sha1` key, whatever the Extras
hold. -/
theorem c7_legacy_fold (aux : UploadMetadataJSON) (m : UploadMetadata) :
    (aux.uploadURL ≠ "" → getExtra (unmarshalUploadMetadata aux) "upload_url" = aux.uploadURL) ∧
    (aux.fileSHA1 ≠ "" → getExtra (unmarshalUploadMetadata aux) "file_sha1" = aux.fileSHA1) ∧
    "upload_url" ∉ marshalTopLevelKeys m ∧
    "file_sha1" ∉ marshalTopLevelKeys m := by
  refine ⟨?_, ?_, ?_, ?_⟩
  · intro hu
    simp only [unmarshalUploadMetadata]
    rw [if_pos hu]
    by_cases hs : aux.fileSHA1 ≠ ""
    · rw [if_pos hs]
      rw [getExtra_setExtra_other _ _ _ _ (by decide) hs (by decide) (by decide)]
      exact getExtra_setExtra_same _ _ _ (by decide) hu
    · rw [if_neg hs]
      exact getExtra_setExtra_same _ _ _ (by decide) hu
  · intro hs
    simp only [unmarshalUploadMetadata]
    rw [if_pos hs]
    exact getExtra_setExtra_same _ _ _ (by decide) hs
  · unfold marshalTopLevelKeys
    by_cases h : m.extras.isEmpty = true
    · rw [if_pos h]
      decide
    · rw [if_neg h]
      decide
  · unfold marshalTopLevelKeys
    by_cases h : m.extras.isEmpty = true
    · rw [if_pos h]
      decide
    · rw [if_neg h]
      decide

/-- An empty metadata value (for the marshal side of the C7 witness). -/
def c7Meta : UploadMetadata :=
  { size := 0, sliceSize := 0, contentMD5 := "", sliceMD5 := "",
    blockList := [], extras := [("upload_url", "kept-in-extras")] }

/-- A sidecar read carrying both legacy keys. -/
def c7Aux : UploadMetadataJSON :=
  { size := 1, sliceSize := 2, contentMD5 := "md5", sliceMD5 := "s",
    blockList := ["b"], extras := [("k", "v")], uploadURL := "u",
    fileSHA1 := "sha" }

/-- C7 witness: the folding theorem at a concrete sidecar with both
legacy keys present and non-empty. -/
theorem c7_witness :
    ("u" : String) ≠ "" ∧ ("sha" : String) ≠ "" ∧
    getExtra (unmarshalUploadMetadata c7Aux) "upload_url" = "u" ∧
    getExtra (unmarshalUploadMetadata c7Aux) "file_sha1" = "sha" ∧
    "upload_url" ∉ marshalTopLevelKeys c7Meta :=
  ⟨by decide, by decide,
    (c7_legacy_fold c7Aux c7Meta).1 (by decide),
    (c7_legacy_fold c7Aux c7Meta).2.1 (by decide),
    (c7_legacy_fold c7Aux c7Meta).2.2.1⟩

/-! ### C8 — ShouldKeep characterisation over operation traces -/

/-- Membership in the keep set after a set-insert. -/
theorem mem_keepInsert (l : List String) (y x : String) :
    x ∈ keepInsert l y ↔ x ∈ l ∨ x = y := by
  unfold keepInsert
  split
  · rename_i hc
    have hy : y ∈ l := by simpa using hc
    constructor
    · exact Or.inl
    · rintro (h | h)
      · exact h
      · exact h ▸ hy
  · simp [List.mem_append]

/-- `saveMetadata` leaves the keep set unchanged. -/
theorem saveMetadata_keep (enc : UploadMetadata → String) (w : CacheWorld)
    (m : Option UploadMetadata) :
    ((saveMetadata enc w m).1).cache.keep = w.cache.keep := by
  cases m <;> (simp only [saveMetadata]; split <;> rfl)

/-- `loadMetadata` leaves the keep set unchanged. -/
theorem loadMetadata_keep (dec : String → Option UploadMetadata) (w : CacheWorld) :
    ((loadMetadata dec w).1).cache.keep = w.cache.keep := by
  simp only [loadMetadata]
  split
  · rfl
  · split
    · rfl
    · split
      · rfl
      · split
        · rfl
        · rfl

/-- Marks of a trace headed by a non-mark operation. -/
theorem exists_mark_cons (cwd : String) (op : CacheOp) (rest : List CacheOp)
    (x : String) (hnm : ∀ q, CacheOp.mark q ≠ op) :
    (∃ q, CacheOp.mark q ∈ op :: rest ∧ q ≠ "" ∧ x = normalizePath cwd q) ↔
    (∃ q, CacheOp.mark q ∈ rest ∧ q ≠ "" ∧ x = normalizePath cwd q) := by
  constructor
  · rintro ⟨q, hq, a, b⟩
    rcases List.mem_cons.mp hq with heq | hq2
    · exact absurd heq (hnm q)
    · exact ⟨q, hq2, a, b⟩
  · rintro ⟨q, hq, a, b⟩
    exact ⟨q, List.mem_cons_of_mem _ hq, a, b⟩

/-- The keep set after a trace holds exactly the initial entries plus the
normalised arguments of the non-empty `MarkKeep` calls. -/
theorem runCacheOps_keep (cwd : String) (enc : UploadMetadata → String)
    (dec : String → Option UploadMetadata) (ops : List CacheOp) :
    ∀ (w : CacheWorld) (x : String),
    (x ∈ (runCacheOps cwd enc dec w ops).cache.keep ↔
      x ∈ w.cache.keep ∨ ∃ q, CacheOp.mark q ∈ ops ∧ q ≠ "" ∧ x = normalizePath cwd q) := by
  induction ops with
  | nil =>
    intro w x
    simp [runCacheOps]
  | cons op rest ih =>
    intro w x
    have hrun : runCacheOps cwd enc dec w (op :: rest)
        = runCacheOps cwd enc dec (cacheStep cwd enc dec w op) rest := rfl
    rw [hrun, ih]
    cases op with
    | mark p =>
      by_cases hp : p = ""
      · have hk : (cacheStep cwd enc dec w (.mark p)).cache.keep = w.cache.keep := by
          simp [cacheStep, markKeep, hp]
        rw [hk]
        apply or_congr_right
        constructor
        · rintro ⟨q, hq, a, b⟩
          exact ⟨q, List.mem_cons_of_mem _ hq, a, b⟩
        · rintro ⟨q, hq, a, b⟩
          rcases List.mem_cons.mp hq with heq | hq2
          · injection heq with h
            exact absurd (h.trans hp) a
          · exact ⟨q, hq2, a, b⟩
      · have hk : (cacheStep cwd enc dec w (.mark p)).cache.keep
            = keepInsert w.cache.keep (normalizePath cwd p) := by
          simp [cacheStep, markKeep, hp]
        rw [hk, mem_keepInsert]
        constructor
        · rintro ((hx | hxy) | ⟨q, hq, a, b⟩)
          · exact Or.inl hx
          · exact Or.inr ⟨p, List.mem_cons_self _ _, hp, hxy⟩
          · exact Or.inr ⟨q, List.mem_cons_of_mem _ hq, a, b⟩
        · rintro (hx | ⟨q, hq, a, b⟩)
          · exact Or.inl (Or.inl hx)
          · rcases List.mem_cons.mp hq with heq | hq2
            · injection heq with h
              subst h
              exact Or.inl (Or.inr b)
            · exact Or.inr ⟨q, hq2, a, b⟩
    | setCached p =>
      have hk : (cacheStep cwd enc dec w (.setCached p)).cache.keep = w.cache.keep := by
        simp only [cacheStep, setCachedPath]
        split <;> rfl
      rw [hk, exists_mark_cons cwd _ rest x (fun q h => CacheOp.noConfusion h)]
    | regTemp p =>
      have hk : (cacheStep cwd enc dec w (.regTemp p)).cache.keep = w.cache.keep := by
        simp only [cacheStep, registerTemp]
        split <;> rfl
      rw [hk, exists_mark_cons cwd _ rest x (fun q h => CacheOp.noConfusion h)]
    | save m =>
      have hk : (cacheStep cwd enc dec w (.save m)).cache.keep = w.cache.keep :=
        saveMetadata_keep enc w m
      rw [hk, exists_mark_cons cwd _ rest x (fun q h => CacheOp.noConfusion h)]
    | load =>
      have hk : (cacheStep cwd enc dec w .load).cache.keep = w.cache.keep :=
        loadMetadata_keep dec w
      rw [hk, exists_mark_cons cwd _ rest x (fun q h => CacheOp.noConfusion h)]
    | removeMetaFile =>
      have hk : (cacheStep cwd enc dec w .removeMetaFile).cache.keep = w.cache.keep := by
        simp only [cacheStep, removeMetadataFile]
        split <;> rfl
      rw [hk, exists_mark_cons cwd _ rest x (fun q h => CacheOp.noConfusion h)]
    | markRetain =>
      have hk : (cacheStep cwd enc dec w .markRetain).cache.keep = w.cache.keep := rfl
      rw [hk, exists_mark_cons cwd _ rest x (fun q h => CacheOp.noConfusion h)]

/-- C8 (amended): after any sequence of cache operations starting from
`NewUploadCache`, for every non-empty path `p`, `ShouldKeep p` holds iff
the normalised form of `p` equals the (non-empty) current `cachedPath`
or some non-empty path with the same normalised form was passed to
`MarkKeep`.  (The empty path is the one exception: `ShouldKeep ""`
returns `false` unconditionally, even though `filepath.Abs("")` is the
working directory and could match.) -/
theorem c8_should_keep (cwd p0 : String) (enc : UploadMetadata → String)
    (dec : String → Option UploadMetadata) (fs0 : List (String × String))
    (ops : List CacheOp) (p : String) (hp : p ≠ "") :
    (shouldKeep cwd (runCacheOps cwd enc dec ⟨newUploadCache cwd p0, fs0⟩ ops).cache p = true ↔
      ((runCacheOps cwd enc dec ⟨newUploadCache cwd p0, fs0⟩ ops).cache.cachedPath ≠ "" ∧
        normalizePath cwd p
          = (runCacheOps cwd enc dec ⟨newUploadCache cwd p0, fs0⟩ ops).cache.cachedPath) ∨
      (∃ q, CacheOp.mark q ∈ ops ∧ q ≠ "" ∧
        normalizePath cwd q = normalizePath cwd p)) := by
  have hkeepIff : (normalizePath cwd p) ∈
      (runCacheOps cwd enc dec ⟨newUploadCache cwd p0, fs0⟩ ops).cache.keep ↔
      ∃ q, CacheOp.mark q ∈ ops ∧ q ≠ "" ∧
        normalizePath cwd p = normalizePath cwd q := by
    have h := runCacheOps_keep cwd enc dec ops ⟨newUploadCache cwd p0, fs0⟩
      (normalizePath cwd p)
    simpa [newUploadCache] using h
  simp only [shouldKeep]
  rw [if_neg hp]
  split
  · rename_i hcond
    simp only [Bool.and_eq_true, decide_eq_true_eq, beq_iff_eq] at hcond
    constructor
    · intro _
      exact Or.inl ⟨hcond.1, hcond.2.symm⟩
    · intro _
      rfl
  · rename_i hcond
    simp only [Bool.and_eq_true, decide_eq_true_eq, beq_iff_eq, not_and] at hcond
    constructor
    · intro hcont
      have hmem : normalizePath cwd p ∈
          (runCacheOps cwd enc dec ⟨newUploadCache cwd p0, fs0⟩ ops).cache.keep := by
        simpa using hcont
      rcases hkeepIff.mp hmem with ⟨q, hq, a, b⟩
      exact Or.inr ⟨q, hq, a, b.symm⟩
    · rintro (⟨hne, heq⟩ | ⟨q, hq, a, b⟩)
      · exact absurd heq.symm (hcond hne)
      · have hmem := hkeepIff.mpr ⟨q, hq, a, b.symm⟩
        simpa using hmem

/-- C8 counterexample: seed the cache with the working directory itself;
then `ShouldKeep ""` is `false` although the normalised absolute form of
`""` equals the non-empty `cachedPath` — so the claimed equivalence
fails for the empty path. -/
theorem c8_counterexample :
    shouldKeep "/w" (newUploadCache "/w" "/w") "" = false ∧
    normalizePath "/w" "" = (newUploadCache "/w" "/w").cachedPath ∧
    (newUploadCache "/w" "/w").cachedPath ≠ "" := by
  refine ⟨rfl, rfl, ?_⟩
  decide

/-- A metadata encoder used only to close the cache world (never
consulted by the keep set). -/
def enc0 : UploadMetadata → String := fun _ => ""

/-- A metadata decoder that always fails. -/
def dec0 : String → Option UploadMetadata := fun _ => none

/-- C8 witness: the characterisation at a concrete trace — after
`MarkKeep "a"`, `ShouldKeep "a"` is true. -/
theorem c8_witness :
    ("a" : String) ≠ "" ∧
    shouldKeep "/w" (runCacheOps "/w" enc0 dec0 ⟨newUploadCache "/w" "", []⟩
      [CacheOp.mark "a"]).cache "a" = true :=
  ⟨by decide,
    (c8_should_keep "/w" "" enc0 dec0 [] [CacheOp.mark "a"] "a" (by decide)).mpr
      (Or.inr ⟨"a", by simp, by decide, rfl⟩)⟩

/-! ### C9 — SaveMetadata(nil) then LoadMetadata -/

/-- Reading a path just removed from the filesystem yields nothing. -/
theorem fsRead_fsRemove_self (fs : List (String × String)) (p : String) :
    fsRead (fsRemove fs p) p = none := by
  unfold fsRead fsRemove
  have h : (fs.filter (fun e => !(e.1 == p))).find? (fun e => e.1 == p) = none := by
    rw [List.find?_eq_none]
    intro x hx
    have h2 := (List.mem_filter.mp hx).2
    simp only [Bool.not_eq_eq_eq_not, Bool.not_true] at h2
    simp [h2]
  rw [h]
  rfl

/-- C9: `SaveMetadata(nil)` succeeds, clears the in-memory metadata,
removes the sidecar file, and an immediately following `LoadMetadata`
returns the not-found error instead of metadata. -/
theorem c9_save_nil_then_load (enc : UploadMetadata → String)
    (dec : String → Option UploadMetadata) (w : CacheWorld) :
    (saveMetadata enc w none).2 = none ∧
    ((saveMetadata enc w none).1).cache.metadata = none ∧
    (metadataPathLocked ((saveMetadata enc w none).1).cache ≠ "" →
      fsRead ((saveMetadata enc w none).1).fs
        (metadataPathLocked ((saveMetadata enc w none).1).cache) = none) ∧
    (loadMetadata dec (saveMetadata enc w none).1).2 = .error .notFound := by
  simp only [saveMetadata]
  by_cases hpath : metadataPathLocked { w.cache with metadata := none } = ""
  · rw [if_pos hpath]
    refine ⟨rfl, rfl, ?_, ?_⟩
    · intro hne
      exact absurd hpath hne
    · simp only [loadMetadata]
      rw [if_pos hpath]
  · rw [if_neg hpath]
    refine ⟨rfl, rfl, ?_, ?_⟩
    · intro _
      exact fsRead_fsRemove_self w.fs _
    · simp only [loadMetadata]
      rw [if_neg hpath, fsRead_fsRemove_self w.fs _]

/-- In-memory metadata present before the clearing save. -/
def c9Meta : UploadMetadata :=
  { size := 1, sliceSize := 1, contentMD5 := "m", sliceMD5 := "",
    blockList := [], extras := [] }

/-- Cache state with a registered temp file and metadata in memory. -/
def c9Cache : UploadCacheState :=
  { cachedPath := "", tempFile := "/w/t", keep := [],
    metadata := some c9Meta, metadataPath := "", retainMeta := false }

/-- A world holding a temp file, cached metadata in memory, and the
sidecar on disk. -/
def c9World : CacheWorld :=
  { cache := c9Cache, fs := [("/w/t.meta", "payload")] }

/-- C9 witness: the theorem at a concrete world with a sidecar on disk
and metadata in memory — after `SaveMetadata(nil)` the load reports
not-found. -/
theorem c9_witness :
    metadataPathLocked ((saveMetadata enc0 c9World none).1).cache ≠ "" ∧
    fsRead ((saveMetadata enc0 c9World none).1).fs
      (metadataPathLocked ((saveMetadata enc0 c9World none).1).cache) = none ∧
    (loadMetadata dec0 (saveMetadata enc0 c9World none).1).2 = .error .notFound := by
  have h1 : metadataPathLocked ((saveMetadata enc0 c9World none).1).cache
      = "/w/t.meta" := rfl
  have h2 : metadataPathLocked ((saveMetadata enc0 c9World none).1).cache ≠ "" := by
    rw [h1]
    decide
  exact ⟨h2, (c9_save_nil_then_load enc0 dec0 c9World).2.2.1 h2,
    (c9_save_nil_then_load enc0 dec0 c9World).2.2.2⟩




